import Mathlib

/-
Verification of the toby synthesizer core against its specification.

The Rust sources are shallowly embedded: f32 arithmetic is modelled as exact
rational (or, where trigonometric functions occur, real) arithmetic, and every
stateful method becomes a pure function from the pre-state to the result and
the post-state.  Definitions follow the source files:
  src/oscillator/mod.rs          (BLEP primitives)
  src/envelope.rs                (ADSR)
  src/filter.rs                  (Svf)
  src/voice.rs                   (Voice)
  src/lib.rs                     (Toby::process note event handling)
  src/oscillator/super_square.rs (SuperSquareOscillator)
  src/oscillator/variable_saw.rs (VariableSawOscillator)
  src/oscillator/string_synth.rs (StringSynthOscillator)
-/

namespace Toby

/-! BLEP correction primitives, from src/oscillator/mod.rs. -/

def this_blep_sample (t : ℚ) : ℚ := (0.5 : ℚ) * t * t

def next_blep_sample (t : ℚ) : ℚ :=
  let t := (1 : ℚ) - t
  (0.5 : ℚ) * t * t

def next_integrated_blep_sample (t : ℚ) : ℚ :=
  let t1 := (0.5 : ℚ) * t
  let t2 := t1 * t1
  let t4 := t2 * t2
  (0.1875 : ℚ) - t1 + (1.5 : ℚ) * t2 - t4

def this_integrated_blep_sample (t : ℚ) : ℚ :=
  next_integrated_blep_sample (1 - t)

/-! Envelope, from src/envelope.rs. -/

inductive EnvelopeStage where
  | Attack
  | Decay
  | Sustain
  | Release
  | Idle
deriving DecidableEq, Repr

inductive EnvelopeEvent where
  | Attack
  | Release
deriving DecidableEq, Repr

structure ADSR where
  attack : ℚ
  decay : ℚ
  sustain : ℚ
  release : ℚ
  stage : EnvelopeStage
  step_timer : ℚ
  timer : ℚ
deriving DecidableEq, Repr

/-- Default ADSR values, from the Default impl in src/envelope.rs. -/
def ADSR.default : ADSR where
  attack := 0.05
  decay := 0.001
  sustain := 0.8
  release := 1.0
  stage := EnvelopeStage.Idle
  step_timer := 0.1
  timer := 0.0

def ADSR.reset (e : ADSR) : ADSR :=
  { e with stage := EnvelopeStage.Idle, step_timer := e.release, timer := 0 }

def ADSR.trigger (e : ADSR) (event : EnvelopeEvent) : ADSR :=
  let e := { e with step_timer := 0, timer := 0 }
  match event with
  | EnvelopeEvent.Attack => { e with stage := EnvelopeStage.Attack }
  | EnvelopeEvent.Release => { e with stage := EnvelopeStage.Release }

/-- Linear interpolation between two values, from src/envelope.rs
(the doc comment there states the first argument should be in [0, 1]). -/
def interpolate (value a b : ℚ) : ℚ := a * (1 - value) + b * value

/-- One step of ADSR::next from src/envelope.rs; returns the emitted gain
and the post-state. -/
def ADSR.next (e : ADSR) (sample_rate : ℚ) : ℚ × ADSR :=
  let e := { e with timer := e.timer + 1 / sample_rate }
  match e.stage with
  | EnvelopeStage.Attack =>
      if e.step_timer ≥ e.attack then
        (1, { e with stage := EnvelopeStage.Decay, step_timer := 0 })
      else
        let e := { e with step_timer := e.step_timer + 1 / sample_rate }
        (interpolate (e.step_timer / e.attack) 0 1, e)
  | EnvelopeStage.Decay =>
      if e.step_timer ≥ e.decay then
        (e.sustain, { e with stage := EnvelopeStage.Sustain, step_timer := 0 })
      else
        let e := { e with step_timer := e.step_timer + 1 / sample_rate }
        (interpolate (e.step_timer / e.decay) 1 e.sustain, e)
  | EnvelopeStage.Sustain => (e.sustain, e)
  | EnvelopeStage.Release =>
      if e.step_timer ≥ e.release then
        (0, { e with stage := EnvelopeStage.Idle, step_timer := 0 })
      else
        let e := { e with step_timer := e.step_timer + 1 / sample_rate }
        (interpolate (e.step_timer / e.release) e.sustain 0, e)
  | EnvelopeStage.Idle => (0, e)

def ADSR.is_active (e : ADSR) : Bool := e.stage ≠ EnvelopeStage.Idle

/-! Multimode state-variable filter, from src/filter.rs.  The per-sample
update is pure field arithmetic, modelled exactly over the rationals. -/

inductive FilterMode where
  | LowPass
  | BandPass
  | HighPass
deriving DecidableEq, Repr

structure Svf where
  mode : FilterMode
  g : ℚ
  r : ℚ
  h : ℚ
  state_1 : ℚ
  state_2 : ℚ
deriving DecidableEq, Repr

/-- One step of Svf::process from src/filter.rs; returns the selected output
and the post-state. -/
def Svf.process (s : Svf) (i : ℚ) : ℚ × Svf :=
  let hp := (i - s.r * s.state_1 - s.g * s.state_1 - s.state_2) * s.h
  let bp := s.g * hp + s.state_1
  let lp := s.g * bp + s.state_2
  let s' := { s with state_1 := s.g * hp + bp, state_2 := s.g * bp + lp }
  (match s.mode with
   | FilterMode.LowPass => lp
   | FilterMode.BandPass => bp
   | FilterMode.HighPass => hp,
   s')

/-- The free function tan from src/filter.rs: clamps its argument below 0.497
before scaling by pi and taking the tangent.  Trigonometry forces this part of
the model onto the reals. -/
noncomputable def Svf.tan (x : ℝ) : ℝ :=
  let f := if x < (0.497 : ℝ) then x else (0.497 : ℝ)
  Real.tan (f * Real.pi)

/-- The coefficient triple computed by Svf::set_f_q in src/filter.rs. -/
structure SvfCoefficients where
  g : ℝ
  r : ℝ
  h : ℝ

/-- Svf::set_f_q from src/filter.rs, restricted to the coefficient fields it
writes (g, then r, then h from r and g). -/
noncomputable def set_f_q (f resonance : ℝ) : SvfCoefficients :=
  let g := Svf.tan f
  let r := 1 / resonance
  let h := 1 / (1 + r * g + g * g)
  { g := g, r := r, h := h }

/-- Rust f32::clamp. -/
def clampQ (x lo hi : ℚ) : ℚ :=
  if x < lo then lo else if x > hi then hi else x

/-! Super-square (hard-sync) oscillator, from src/oscillator/super_square.rs:
the parameter derivation done by SuperSquareOscillator::prepare. -/

namespace SuperSquareOscillator

def MAX_FREQUENCY : ℚ := 0.25

def MIN_FREQUENCY : ℚ := 0.000001

/-- The slave frequency derived from shape in SuperSquareOscillator::prepare,
before clamping. -/
def slave_frequency (shape frequency : ℚ) : ℚ :=
  if shape < (0.5 : ℚ) then frequency * ((0.51 : ℚ) + (0.98 : ℚ) * shape)
  else frequency * (1 + 16 * (shape - (0.5 : ℚ)) * (shape - (0.5 : ℚ)))

/-- The two smoother targets set by SuperSquareOscillator::prepare:
(master frequency, slave frequency), both clamped. -/
def prepare_targets (shape frequency : ℚ) : ℚ × ℚ :=
  (clampQ frequency MIN_FREQUENCY MAX_FREQUENCY,
   clampQ (slave_frequency shape frequency) MIN_FREQUENCY MAX_FREQUENCY)

end SuperSquareOscillator

/-! Variable-saw oscillator, from src/oscillator/variable_saw.rs. -/

def NOTCH_DEPTH : ℚ := 0.2

structure VariableSawOscillator where
  pw : ℚ
  waveshape : ℚ
  phase : ℚ
  high : Bool
  next_sample : ℚ
  previous_pw : ℚ
deriving DecidableEq, Repr

/-- The Default impl from src/oscillator/variable_saw.rs. -/
def VariableSawOscillator.default : VariableSawOscillator where
  phase := 0
  next_sample := 0
  previous_pw := 0.5
  high := false
  pw := 0.5
  waveshape := 0

def VariableSawOscillator.prepare_block (o : VariableSawOscillator)
    (pw waveshape frequency sample_rate : ℚ) : VariableSawOscillator :=
  let phase_delta := frequency / sample_rate
  let pw := if phase_delta ≥ (0.25 : ℚ) then (0.5 : ℚ)
            else clampQ pw (phase_delta * 2) (1 - 2 * phase_delta)
  { o with pw := pw, waveshape := waveshape }

def VariableSawOscillator.compute_naive_sample (o : VariableSawOscillator)
    (slope_up slope_down triangle_amount notch_amount : ℚ) : ℚ :=
  let notch_saw := if o.phase < o.pw then o.phase else 1 + NOTCH_DEPTH
  let triangle := if o.phase < o.pw then o.phase * slope_up
                  else 1 - (o.phase - o.pw) * slope_down
  notch_saw * notch_amount + triangle * triangle_amount

/-- VariableSawOscillator::process from src/oscillator/variable_saw.rs;
returns the output sample and the post-state.  Note the penultimate statement
of the source assigns (not accumulates) the naive sample into next_sample. -/
def VariableSawOscillator.process (o : VariableSawOscillator)
    (frequency sample_rate : ℚ) : ℚ × VariableSawOscillator :=
  let this_sample := o.next_sample
  let o := { o with next_sample := 0 }
  let phase_delta := frequency / sample_rate
  let triangle_amount := o.waveshape
  let notch_amount := 1 - o.waveshape
  let slope_up := 1 / o.pw
  let slope_down := 1 / (1 - o.pw)
  let o := { o with phase := o.phase + phase_delta }
  let step :=
    if o.high = false ∧ o.pw ≤ o.phase then
      let triangle_step := (slope_up + slope_down) * phase_delta * triangle_amount
      let notch := (NOTCH_DEPTH + 1 - o.pw) * notch_amount
      let t := (o.phase - o.pw) / (o.previous_pw - o.pw + phase_delta)
      let this_sample := this_sample + notch * this_blep_sample t
      let o := { o with next_sample := o.next_sample + notch * next_blep_sample t }
      let this_sample := this_sample - triangle_step * this_integrated_blep_sample t
      let o := { o with next_sample := o.next_sample - triangle_step * next_integrated_blep_sample t }
      (this_sample, { o with high := true })
    else if (1 : ℚ) ≤ o.phase then
      let o := { o with phase := o.phase - 1 }
      let triangle_step := (slope_up + slope_down) * phase_delta * triangle_amount
      let notch := (NOTCH_DEPTH + 1) * notch_amount
      let t := o.phase / phase_delta
      let this_sample := this_sample + notch * this_blep_sample t
      let o := { o with next_sample := o.next_sample + notch * next_blep_sample t }
      let this_sample := this_sample - triangle_step * this_integrated_blep_sample t
      let o := { o with next_sample := o.next_sample - triangle_step * next_integrated_blep_sample t }
      (this_sample, { o with high := false })
    else (this_sample, o)
  let this_sample := step.1
  let o := step.2
  let o := { o with
    next_sample := o.compute_naive_sample slope_up slope_down triangle_amount notch_amount,
    previous_pw := o.pw }
  ((2 * this_sample - 1) / (1 + NOTCH_DEPTH), o)

/-! String-synth (additive) oscillator, from src/oscillator/string_synth.rs. -/

namespace StringSynthOscillator

def MAX_FREQUENCY : ℚ := 0.25

def MIN_FREQUENCY : ℚ := 0.000001

end StringSynthOscillator

/-- The octave-shift loop at the top of StringSynthOscillator::prepare_block:
while phase_delta > 0.5, add 2 to shift and halve phase_delta. -/
def shiftLoop (phase_delta : ℚ) (shift : ℕ) : ℚ × ℕ :=
  if h : (1 : ℚ) / 2 < phase_delta then shiftLoop (phase_delta / 2) (shift + 2)
  else (phase_delta, shift)
termination_by (⌈2 * phase_delta⌉).toNat
decreasing_by
  have hceil : (⌈phase_delta⌉ : ℚ) < 2 * phase_delta := by
    rcases le_or_lt phase_delta 1 with h1 | h1
    · calc (⌈phase_delta⌉ : ℚ) ≤ (1 : ℤ) := by
            exact_mod_cast Int.ceil_le.mpr (by exact_mod_cast h1)
      _ < 2 * phase_delta := by push_cast; linarith
    · calc (⌈phase_delta⌉ : ℚ) < phase_delta + 1 := Int.ceil_lt_add_one _
      _ < 2 * phase_delta := by linarith
  have hlt : ⌈phase_delta⌉ < ⌈2 * phase_delta⌉ := by
    have := Int.add_one_le_ceil_iff.mpr hceil
    omega
  have h2 : 2 * (phase_delta / 2) = phase_delta := by ring
  rw [h2]
  have hc2 : (0 : ℤ) < ⌈2 * phase_delta⌉ :=
    Int.ceil_pos.mpr (by linarith)
  omega

/-- The registration copy in StringSynthOscillator::prepare_block:
registration[shift..7] receives unshifted[0..7-shift], the rest stays zero. -/
def shift_registration (unshifted : Fin 7 → ℚ) (shift : ℕ) : Fin 7 → ℚ :=
  fun i =>
    if _h : shift ≤ i.val then
      unshifted ⟨i.val - shift, Nat.lt_of_le_of_lt (Nat.sub_le _ _) i.isLt⟩
    else 0

/-- Smoother targets and phase state of the string-synth oscillator.  The
smoothers themselves are an external collaborator; only their targets are
modelled. -/
structure StringSynthOscillator where
  phase : ℚ
  segment : ℤ
  next_sample : ℚ
  frequency : ℚ
  saw_8_gain : ℚ
  saw_4_gain : ℚ
  saw_2_gain : ℚ
  saw_1_gain : ℚ
deriving DecidableEq, Repr

/-- The Default impl from src/oscillator/string_synth.rs (all smoothers start
at zero). -/
def StringSynthOscillator.default : StringSynthOscillator where
  phase := 0
  segment := 0
  next_sample := 0
  frequency := 0
  saw_8_gain := 0
  saw_4_gain := 0
  saw_2_gain := 0
  saw_1_gain := 0

/-- StringSynthOscillator::prepare_block from src/oscillator/string_synth.rs:
computes the octave shift, returns the state unchanged when shift >= 8, and
otherwise sets the five smoother targets. -/
def StringSynthOscillator.prepare_block (o : StringSynthOscillator)
    (unshifted_registration : Fin 7 → ℚ) (gain frequency sample_rate : ℚ) :
    StringSynthOscillator :=
  let ps := shiftLoop (frequency / sample_rate) 0
  let phase_delta := ps.1
  let shift := ps.2
  if 8 ≤ shift then o
  else
    let registration := shift_registration unshifted_registration shift
    { o with
      frequency := clampQ phase_delta StringSynthOscillator.MIN_FREQUENCY
        StringSynthOscillator.MAX_FREQUENCY
      saw_8_gain := gain * (registration 0 + 2 * registration 1)
      saw_4_gain := gain * (registration 2 - registration 1 + 2 * registration 3)
      saw_2_gain := gain * (registration 4 - registration 3 + 2 * registration 5)
      saw_1_gain := gain * (registration 6 - registration 5) }

/-! Voice and voice manager, from src/voice.rs and src/lib.rs.  The fields a
voice carries beyond these (oscillator engine, filter state, midi_note_freq)
are not read or written by the note-event dispatch modelled here:
Voice::trigger writes midi_note_freq through an external nih_plug utility and
the oscillator and filter are only touched by the per-sample render path. -/

structure Voice where
  midi_note_id : ℕ
  midi_velocity : ℚ
  trigger_time : ℚ
  envelope : ADSR
deriving DecidableEq, Repr

/-- Voice::new from src/voice.rs: note id 0, velocity 1, default envelope. -/
def Voice.new : Voice where
  midi_note_id := 0
  midi_velocity := 1
  trigger_time := 0
  envelope := ADSR.default

def Voice.is_active (v : Voice) : Bool := v.envelope.is_active

def Voice.trigger (v : Voice) (note : ℕ) (velocity : ℚ) : Voice :=
  { v with
    midi_note_id := note
    midi_velocity := velocity
    envelope := v.envelope.trigger EnvelopeEvent.Attack }

def Voice.release (v : Voice) : Voice :=
  { v with envelope := v.envelope.trigger EnvelopeEvent.Release }

/-- A for-loop over the voice pool that mutates the first voice satisfying p
and breaks; none when no voice matches. -/
def updateFirst (p : Voice → Bool) (f : Voice → Voice) : List Voice → Option (List Voice)
  | [] => none
  | v :: vs => if p v then some (f v :: vs) else (updateFirst p f vs).map (v :: ·)

/-- The fold performed by Iterator::max_by in note-on pass 4 of Toby::process:
the running candidate is kept only when its timer compares strictly greater,
so on ties the later element replaces it.  Tracks (index, timer). -/
def stealIdxAux (bi : ℕ) (bv : ℚ) (i : ℕ) : List ℚ → ℕ × ℚ
  | [] => (bi, bv)
  | t :: ts => if bv > t then stealIdxAux bi bv (i + 1) ts else stealIdxAux i t (i + 1) ts

/-- Index of the voice chosen by max_by over envelope timers (none on an
empty pool, where the source would panic on unwrap). -/
def stealIdx : List ℚ → Option ℕ
  | [] => none
  | t :: ts => some (stealIdxAux 0 t 1 ts).1

/-- The NoteOn arm of Toby::process from src/lib.rs: four allocation passes,
first match wins. -/
def noteOn (voices : List Voice) (note : ℕ) (velocity : ℚ) : List Voice :=
  match updateFirst (fun v => v.midi_note_id == note) (fun v => v.trigger note velocity) voices with
  | some vs => vs
  | none =>
  match updateFirst (fun v => !v.is_active) (fun v => v.trigger note velocity) voices with
  | some vs => vs
  | none =>
  match updateFirst (fun v => decide (v.envelope.stage = EnvelopeStage.Release))
      (fun v => v.trigger note velocity) voices with
  | some vs => vs
  | none =>
  match stealIdx (voices.map (fun v => v.envelope.timer)) with
  | some i => voices.set i ((voices.getD i Voice.new).trigger note velocity)
  | none => voices

/-- The NoteOff arm of Toby::process from src/lib.rs: release the first voice
holding the note; drop the event otherwise. -/
def noteOff (voices : List Voice) (note : ℕ) : List Voice :=
  match updateFirst (fun v => v.midi_note_id == note) Voice.release voices with
  | some vs => vs
  | none => voices

/-! Concrete states used by counterexamples and witnesses. -/

/-- The six-voice pool as constructed in Toby::default. -/
def freshPool : List Voice :=
  [Voice.new, Voice.new, Voice.new, Voice.new, Voice.new, Voice.new]

/-- A voice holding note 60 whose envelope sits in the Sustain stage. -/
def vSustain : Voice where
  midi_note_id := 60
  midi_velocity := 1
  trigger_time := 0
  envelope := { ADSR.default with stage := EnvelopeStage.Sustain, step_timer := 3, timer := 7 }

/-- An active sustaining voice on note 1 with envelope timer 1. -/
def vHeld : Voice where
  midi_note_id := 1
  midi_velocity := 1
  trigger_time := 0
  envelope := { ADSR.default with stage := EnvelopeStage.Sustain, step_timer := 0, timer := 1 }

/-- Six active voices with equal envelope timers. -/
def equalTimerPool : List Voice := [vHeld, vHeld, vHeld, vHeld, vHeld, vHeld]

/-- A variable-saw state one sample before a wraparound crossing. -/
def sawWrapState : VariableSawOscillator where
  pw := 1 / 2
  waveshape := 0
  phase := 9 / 10
  high := true
  next_sample := 0
  previous_pw := 1 / 2

/-- Registration row 0 of REGISTRATION_TABLE (pure saw). -/
def sawRegistration : Fin 7 → ℚ := ![1, 0, 0, 0, 0, 0, 0]

/-! Helper lemmas about the voice-pool traversals. -/

theorem updateFirst_eq_none {p : Voice → Bool} {f : Voice → Voice} {l : List Voice}
    (h : ∀ v ∈ l, p v = false) : updateFirst p f l = none := by
  induction l with
  | nil => rfl
  | cons v vs ih =>
      simp [updateFirst, h v (List.mem_cons_self v vs),
        ih (fun w hw => h w (List.mem_cons_of_mem _ hw))]

theorem updateFirst_append (p : Voice → Bool) (f : Voice → Voice) (l r : List Voice) (v : Voice)
    (hl : ∀ w ∈ l, p w = false) (hv : p v = true) :
    updateFirst p f (l ++ v :: r) = some (l ++ f v :: r) := by
  induction l with
  | nil => simp [updateFirst, hv]
  | cons w l ih =>
      have hw := hl w (List.mem_cons_self w l)
      simp only [List.cons_append, updateFirst, hw, Bool.false_eq_true, if_false,
        List.append_eq]
      rw [ih (fun x hx => hl x (List.mem_cons_of_mem _ hx))]
      rfl

/-! Claim theorems. -/

/-- Claim C8, counterexample: at t = 0 the two BLEP correction halves sum to
1/2, not 1, so the sum does not equal 1 for all t in [0, 1]. -/
theorem blep_sum_at_zero :
    this_blep_sample 0 + next_blep_sample 0 = 1 / 2 ∧ ((1 : ℚ) / 2) ≠ 1 := by
  norm_num [this_blep_sample, next_blep_sample]

/-- Claim C8, amended: for every t, this_blep_sample t + next_blep_sample t
equals t^2 - t + 1/2 (so it ranges over [1/4, 1/2] on [0, 1], and never 1). -/
theorem blep_sum_eq (t : ℚ) :
    this_blep_sample t + next_blep_sample t = t ^ 2 - t + 1 / 2 := by
  simp only [this_blep_sample, next_blep_sample]
  ring

/-- Claim C3, code-bug evaluation: with the default (valid) parameters and
sample rate 30, the second call to ADSR::next after trigger(Attack) returns
4/3, which lies outside [0, 1]: the step timer is incremented past the attack
duration before the interpolation ratio is formed. -/
theorem adsr_next_exceeds_one :
    0 < ADSR.default.attack ∧ 0 < ADSR.default.decay ∧ 0 < ADSR.default.release ∧
    0 ≤ ADSR.default.sustain ∧ ADSR.default.sustain ≤ 1 ∧
    (((ADSR.default.trigger EnvelopeEvent.Attack).next 30).2.next 30).1 = 4 / 3 ∧
    ¬((((ADSR.default.trigger EnvelopeEvent.Attack).next 30).2.next 30).1 ≤ 1) := by
  norm_num [ADSR.next, ADSR.trigger, ADSR.default, interpolate]

/-- Claim C4: one call to Svf::process computes exactly
hp = (i - r s1 - g s1 - s2) h, bp = g hp + s1, lp = g bp + s2, stores
s1 evolves to g hp + bp and s2 to g bp + lp, leaves the coefficients and mode
unchanged, and returns lp, bp or hp according to the mode. -/
theorem svf_process_eq (s : Svf) (i : ℚ) :
    let hp := (i - s.r * s.state_1 - s.g * s.state_1 - s.state_2) * s.h
    let bp := s.g * hp + s.state_1
    let lp := s.g * bp + s.state_2
    (Svf.process s i).2.state_1 = s.g * hp + bp ∧
    (Svf.process s i).2.state_2 = s.g * bp + lp ∧
    (Svf.process s i).2.mode = s.mode ∧
    (Svf.process s i).2.g = s.g ∧
    (Svf.process s i).2.r = s.r ∧
    (Svf.process s i).2.h = s.h ∧
    (Svf.process s i).1 = (match s.mode with
      | FilterMode.LowPass => lp
      | FilterMode.BandPass => bp
      | FilterMode.HighPass => hp) :=
  ⟨rfl, rfl, rfl, rfl, rfl, rfl, rfl⟩

/-- Claim C5, counterexample: at shape = 1 the slave frequency is 5 times the
master frequency, not 17 times. -/
theorem super_square_slave_at_one :
    SuperSquareOscillator.slave_frequency 1 1 = 5 ∧
    SuperSquareOscillator.slave_frequency 1 1 ≠ 17 := by
  norm_num [SuperSquareOscillator.slave_frequency]

/-- Claim C5, amended: below shape 0.5 the slave frequency is the master
scaled into [0.51, 1.0]; at or above 0.5 it grows quadratically up to 5 times
the master at shape = 1, strictly exceeding the master for shape above 0.5. -/
theorem super_square_slave_frequency_range (shape frequency : ℚ)
    (h0 : 0 ≤ shape) (h1 : shape ≤ 1) (hf : 0 < frequency) :
    (shape < (0.5 : ℚ) →
      (0.51 : ℚ) * frequency ≤ SuperSquareOscillator.slave_frequency shape frequency ∧
      SuperSquareOscillator.slave_frequency shape frequency ≤ frequency) ∧
    ((0.5 : ℚ) ≤ shape →
      frequency ≤ SuperSquareOscillator.slave_frequency shape frequency ∧
      SuperSquareOscillator.slave_frequency shape frequency ≤ 5 * frequency) ∧
    ((0.5 : ℚ) < shape → frequency < SuperSquareOscillator.slave_frequency shape frequency) ∧
    (shape = 1 → SuperSquareOscillator.slave_frequency shape frequency = 5 * frequency) := by
  unfold SuperSquareOscillator.slave_frequency
  refine ⟨?_, ?_, ?_, ?_⟩
  · intro hs
    rw [if_pos hs]
    constructor
    · nlinarith
    · nlinarith
  · intro hs
    rw [if_neg (not_lt.mpr hs)]
    constructor
    · nlinarith [sq_nonneg (shape - (0.5 : ℚ))]
    · have e1 : shape - (0.5 : ℚ) ≤ (0.5 : ℚ) := by linarith
      have e2 : (0 : ℚ) ≤ shape - (0.5 : ℚ) := by linarith
      nlinarith [mul_le_mul e1 e1 e2 (by norm_num : (0:ℚ) ≤ (0.5 : ℚ))]
  · intro hs
    rw [if_neg (not_lt.mpr (le_of_lt hs))]
    nlinarith [mul_pos (sub_pos.mpr hs) (sub_pos.mpr hs)]
  · intro hs
    subst hs
    rw [if_neg (by norm_num)]
    ring

/-- Claim C5 witness: at shape = 3/4 the slave frequency exceeds the master
and stays at most 5 times the master. -/
theorem super_square_slave_frequency_range_witness :
    (1 : ℚ) < SuperSquareOscillator.slave_frequency (3 / 4) 1 ∧
    SuperSquareOscillator.slave_frequency (3 / 4) 1 ≤ 5 * 1 :=
  ⟨(super_square_slave_frequency_range (3 / 4) 1 (by norm_num) (by norm_num)
      (by norm_num)).2.2.1 (by norm_num),
   ((super_square_slave_frequency_range (3 / 4) 1 (by norm_num) (by norm_num)
      (by norm_num)).2.1 (by norm_num)).2⟩

/-- Claim C7, counterexample: set_f_q with the negative cutoff -1/4 produces
g = tan(-pi/4) = -1, which is below 0, so g does not lie in
[0, tan(0.497 pi)] for every f. -/
theorem svf_g_negative_at_negative_f :
    (set_f_q (-(1 / 4) : ℝ) 1).g = -1 ∧ ¬(0 ≤ (set_f_q (-(1 / 4) : ℝ) 1).g) := by
  have hg : (set_f_q (-(1 / 4) : ℝ) 1).g = Real.tan (-(1 / 4) * Real.pi) := by
    show Svf.tan (-(1 / 4) : ℝ) = _
    unfold Svf.tan
    rw [if_pos (by norm_num)]
  have harg : (-(1 / 4) : ℝ) * Real.pi = -(Real.pi / 4) := by ring
  rw [hg, harg, Real.tan_neg, Real.tan_pi_div_four]
  norm_num

/-- Claim C7, amended: for every nonnegative f and every resonance, the g
coefficient set by set_f_q lies in [0, tan(0.497 pi)]. -/
theorem svf_g_range (f resonance : ℝ) (hf : 0 ≤ f) :
    0 ≤ (set_f_q f resonance).g ∧
    (set_f_q f resonance).g ≤ Real.tan ((0.497 : ℝ) * Real.pi) := by
  have hg : (set_f_q f resonance).g = Svf.tan f := rfl
  rw [hg]
  unfold Svf.tan
  set x := if f < (0.497 : ℝ) then f else (0.497 : ℝ) with hx
  have hx0 : 0 ≤ x := by
    rw [hx]; split
    · exact hf
    · norm_num
  have hx1 : x ≤ (0.497 : ℝ) := by
    rw [hx]; split
    · linarith
    · exact le_refl _
  have hpi := Real.pi_pos
  have hhalf : (0.497 : ℝ) * Real.pi < Real.pi / 2 := by nlinarith
  have hb : x * Real.pi ≤ Real.pi / 2 := by nlinarith
  constructor
  · exact Real.tan_nonneg_of_nonneg_of_le_pi_div_two (mul_nonneg hx0 hpi.le) hb
  · rcases eq_or_lt_of_le hx1 with he | hlt
    · rw [he]
    · exact le_of_lt (Real.tan_lt_tan_of_nonneg_of_lt_pi_div_two
        (mul_nonneg hx0 hpi.le) hhalf
        (by nlinarith))

/-- Claim C7 witness: at f = 0, resonance = 1, the g coefficient is within
[0, tan(0.497 pi)]. -/
theorem svf_g_range_witness :
    0 ≤ (set_f_q 0 1).g ∧ (set_f_q 0 1).g ≤ Real.tan ((0.497 : ℝ) * Real.pi) :=
  svf_g_range 0 1 (le_refl 0)

/-- Claim C1, counterexample: a voice in Sustain holding note 60 that receives
a NoteOn for note 60 ends with its envelope stage set to Attack (and timer 0),
not left in Sustain as the claim demands. -/
theorem noteOn_sustain_retrigger_attack :
    vSustain.midi_note_id = 60 ∧
    vSustain.envelope.stage = EnvelopeStage.Sustain ∧
    ((noteOn [vSustain] 60 1).getD 0 Voice.new).envelope.stage = EnvelopeStage.Attack ∧
    ((noteOn [vSustain] 60 1).getD 0 Voice.new).envelope.timer = 0 ∧
    EnvelopeStage.Attack ≠ EnvelopeStage.Sustain :=
  ⟨rfl, rfl, rfl, rfl, by decide⟩

/-- Claim C1, amended: a NoteOn for a note number some voice already holds
always performs a full trigger on the first such voice in pool order — the
envelope stage becomes Attack and both timers reset to 0 — in every stage,
with no legato special case for Decay or Sustain. -/
theorem noteOn_same_note_full_trigger (l r : List Voice) (v : Voice) (note : ℕ) (vel : ℚ)
    (hl : ∀ w ∈ l, w.midi_note_id ≠ note) (hv : v.midi_note_id = note) :
    noteOn (l ++ v :: r) note vel = l ++ v.trigger note vel :: r ∧
    (v.trigger note vel).envelope.stage = EnvelopeStage.Attack ∧
    (v.trigger note vel).envelope.step_timer = 0 ∧
    (v.trigger note vel).envelope.timer = 0 := by
  have h1 : updateFirst (fun w => w.midi_note_id == note)
      (fun w => w.trigger note vel) (l ++ v :: r) = some (l ++ v.trigger note vel :: r) :=
    updateFirst_append _ _ l r v
      (fun w hw => by simp [hl w hw]) (by simp [hv])
  exact ⟨by simp only [noteOn, h1], rfl, rfl, rfl⟩

/-- Claim C1 witness: with a pool holding notes 1 and 60 and the second voice
sustaining note 60, a NoteOn for 60 retriggers that voice into Attack. -/
theorem noteOn_same_note_full_trigger_witness :
    noteOn [vHeld, vSustain] 60 1 = [vHeld, vSustain.trigger 60 1] ∧
    (vSustain.trigger 60 1).envelope.stage = EnvelopeStage.Attack ∧
    (vSustain.trigger 60 1).envelope.step_timer = 0 ∧
    (vSustain.trigger 60 1).envelope.timer = 0 :=
  noteOn_same_note_full_trigger [vHeld] [] vSustain 60 1 (by decide) (by decide)

/-- Claim C10: a fresh voice has midi_note_id 0 with no none sentinel, so a
NoteOff for note 0 sent to the freshly constructed six-voice pool releases the
first voice: its envelope stage becomes Release and is_active turns true even
though it never received a NoteOn. -/
theorem fresh_pool_note_off_zero :
    Voice.new.midi_note_id = 0 ∧
    noteOff freshPool 0 =
      Voice.release Voice.new ::
        [Voice.new, Voice.new, Voice.new, Voice.new, Voice.new] ∧
    (Voice.release Voice.new).envelope.stage = EnvelopeStage.Release ∧
    (Voice.release Voice.new).is_active = true :=
  ⟨rfl, rfl, rfl, rfl⟩

/-- Claim C6, code-bug evaluation: from a state one sample before wraparound
(phase 9/10, pw 1/2, pure notch shape) with phase_delta 1/5, the wrap branch
accrues the step correction (6/5) * next_blep_sample(1/2) = 3/20 into
next_sample, but the final assignment overwrites next_sample with the naive
sample 1/10 alone, so the carried correction never reaches the next call. -/
theorem variable_saw_correction_discarded :
    (6 / 5 : ℚ) * next_blep_sample (1 / 2) = 3 / 20 ∧
    ((sawWrapState.process (1 / 5) 1).2).next_sample = 1 / 10 ∧
    ((sawWrapState.process (1 / 5) 1).2).next_sample ≠
      1 / 10 + (6 / 5 : ℚ) * next_blep_sample (1 / 2) := by
  norm_num [VariableSawOscillator.process, VariableSawOscillator.compute_naive_sample,
    sawWrapState, next_blep_sample, this_blep_sample, this_integrated_blep_sample,
    next_integrated_blep_sample, NOTCH_DEPTH]

/-- Claim C9: prepare_block leaves the whole oscillator state untouched when
the computed octave shift reaches 8, and otherwise rewrites exactly the five
smoother targets from the shifted registration. -/
theorem string_synth_prepare_block_spec (o : StringSynthOscillator)
    (reg : Fin 7 → ℚ) (gain frequency sample_rate : ℚ) :
    let ps := shiftLoop (frequency / sample_rate) 0
    let r := shift_registration reg ps.2
    (8 ≤ ps.2 → o.prepare_block reg gain frequency sample_rate = o) ∧
    (ps.2 < 8 → o.prepare_block reg gain frequency sample_rate =
      { o with
        frequency := clampQ ps.1 StringSynthOscillator.MIN_FREQUENCY
          StringSynthOscillator.MAX_FREQUENCY
        saw_8_gain := gain * (r 0 + 2 * r 1)
        saw_4_gain := gain * (r 2 - r 1 + 2 * r 3)
        saw_2_gain := gain * (r 4 - r 3 + 2 * r 5)
        saw_1_gain := gain * (r 6 - r 5) }) := by
  simp only [StringSynthOscillator.prepare_block]
  constructor
  · intro h
    rw [if_pos h]
  · intro h
    rw [if_neg (by omega)]

/-- Claim C9 witness: at frequency 5 and sample rate 1 the octave shift
reaches 8, and prepare_block returns the default state unchanged. -/
theorem string_synth_prepare_block_spec_witness :
    StringSynthOscillator.default.prepare_block sawRegistration 1 5 1 =
      StringSynthOscillator.default :=
  (string_synth_prepare_block_spec StringSynthOscillator.default
    sawRegistration 1 5 1).1 (by
      have e : shiftLoop ((5 : ℚ) / 1) 0 = (5 / 16, 8) := by
        rw [shiftLoop]; norm_num
        rw [shiftLoop]; norm_num
        rw [shiftLoop]; norm_num
        rw [shiftLoop]; norm_num
        rw [shiftLoop]; norm_num
      rw [e])

/-- Invariant of the max_by fold: starting from best index bi (below the
running position i) and best timer bv, the fold returns a pair whose timer
bounds bv and every remaining element, whose index comes either from the
accumulator or from the list, such that everything strictly after the chosen
index is strictly smaller (ties are overtaken by later elements). -/
theorem stealIdxAux_spec (ts : List ℚ) :
    ∀ (bi : ℕ) (bv : ℚ) (i : ℕ), bi < i →
      bv ≤ (stealIdxAux bi bv i ts).2 ∧
      (∀ k, k < ts.length → ts.getD k 0 ≤ (stealIdxAux bi bv i ts).2) ∧
      ((stealIdxAux bi bv i ts).1 = bi ∧ (stealIdxAux bi bv i ts).2 = bv ∨
        ∃ k, k < ts.length ∧ (stealIdxAux bi bv i ts).1 = i + k ∧
          ts.getD k 0 = (stealIdxAux bi bv i ts).2) ∧
      (∀ k, k < ts.length → (stealIdxAux bi bv i ts).1 < i + k →
        ts.getD k 0 < (stealIdxAux bi bv i ts).2) ∧
      bi ≤ (stealIdxAux bi bv i ts).1 ∧
      ((stealIdxAux bi bv i ts).1 = bi → ∀ k, k < ts.length → ts.getD k 0 < bv) := by
  induction ts with
  | nil =>
      intro bi bv i _
      refine ⟨le_refl _, by simp, Or.inl ⟨rfl, rfl⟩, by simp, le_refl _, by simp⟩
  | cons t ts ih =>
      intro bi bv i hbi
      by_cases hb : bv > t
      · obtain ⟨a, b, c, e, f, d⟩ := ih bi bv (i + 1) (by omega)
        simp only [stealIdxAux, if_pos hb]
        refine ⟨a, ?_, ?_, ?_, f, ?_⟩
        · intro k hk
          cases k with
          | zero => simpa using le_trans (le_of_lt hb) a
          | succ k => simpa using b k (by simpa using hk)
        · rcases c with ⟨h1, h2⟩ | ⟨k, hk, hik, hval⟩
          · exact Or.inl ⟨h1, h2⟩
          · exact Or.inr ⟨k + 1, by simpa using hk, by omega, by simpa using hval⟩
        · intro k hk _
          cases k with
          | zero => simpa using lt_of_lt_of_le hb a
          | succ k =>
              rename_i hlt
              simpa using e k (by simpa using hk) (by omega)
        · intro h1 k hk
          cases k with
          | zero => simpa using hb
          | succ k => simpa using d h1 k (by simpa using hk)
      · have hle : bv ≤ t := le_of_not_lt hb
        obtain ⟨a, b, c, e, f, d⟩ := ih i t (i + 1) (by omega)
        simp only [stealIdxAux, if_neg hb]
        refine ⟨le_trans hle a, ?_, ?_, ?_, by omega, ?_⟩
        · intro k hk
          cases k with
          | zero => simpa using a
          | succ k => simpa using b k (by simpa using hk)
        · rcases c with ⟨h1, h2⟩ | ⟨k, hk, hik, hval⟩
          · exact Or.inr ⟨0, by simp, by omega, by simpa using h2.symm⟩
          · exact Or.inr ⟨k + 1, by simpa using hk, by omega, by simpa using hval⟩
        · intro k hk hlt
          cases k with
          | zero => omega
          | succ k => simpa using e k (by simpa using hk) (by omega)
        · intro h1
          omega

/-- The index selected by the max_by fold over a nonempty timer list carries
the maximum timer, and every later index holds a strictly smaller timer. -/
theorem stealIdx_spec (ts : List ℚ) (hne : ts ≠ []) :
    ∃ i, stealIdx ts = some i ∧ i < ts.length ∧
      (∀ j, j < ts.length → ts.getD j 0 ≤ ts.getD i 0) ∧
      (∀ j, i < j → j < ts.length → ts.getD j 0 < ts.getD i 0) := by
  cases ts with
  | nil => exact absurd rfl hne
  | cons t ts =>
      obtain ⟨a, b, c, e, _, _⟩ := stealIdxAux_spec ts 0 t 1 (by omega)
      refine ⟨(stealIdxAux 0 t 1 ts).1, rfl, ?_, ?_, ?_⟩
      · rcases c with ⟨h1, _⟩ | ⟨k, hk, hik, _⟩
        · simp [h1]
        · simp only [List.length_cons]
          omega
      · have hval : (t :: ts).getD (stealIdxAux 0 t 1 ts).1 0 = (stealIdxAux 0 t 1 ts).2 := by
          rcases c with ⟨h1, h2⟩ | ⟨k, hk, hik, hkv⟩
          · rw [h1, h2]; rfl
          · rw [hik, Nat.add_comm 1 k]; simpa using hkv
        intro j hj
        rw [hval]
        cases j with
        | zero => simpa using a
        | succ j => simpa using b j (by simpa using hj)
      · have hval : (t :: ts).getD (stealIdxAux 0 t 1 ts).1 0 = (stealIdxAux 0 t 1 ts).2 := by
          rcases c with ⟨h1, h2⟩ | ⟨k, hk, hik, hkv⟩
          · rw [h1, h2]; rfl
          · rw [hik, Nat.add_comm 1 k]; simpa using hkv
        intro j hij hj
        rw [hval]
        cases j with
        | zero => omega
        | succ j => simpa using e j (by simpa using hj) (by omega)

/-- Claim C2, counterexample: six active voices with equal timers 1; the
NoteOn (no matching note, none inactive, none releasing) steals the LAST
voice in pool order, not the first as the claim states. -/
theorem noteOn_tie_steals_last :
    (∀ v ∈ equalTimerPool, v.envelope.timer = 1) ∧
    noteOn equalTimerPool 60 1 =
      [vHeld, vHeld, vHeld, vHeld, vHeld, vHeld.trigger 60 1] ∧
    vHeld.trigger 60 1 ≠ vHeld := by
  refine ⟨by decide, ?_, by decide⟩
  simp [noteOn, updateFirst, stealIdx, stealIdxAux, equalTimerPool, vHeld,
    Voice.trigger, Voice.is_active, ADSR.is_active, ADSR.trigger, ADSR.default,
    Voice.new, List.getD]

/-- Claim C2, amended: when no voice matches the note, none is inactive and
none is releasing, the NoteOn steals the voice with the maximum envelope
timer, ties broken in favour of the LAST such voice in pool order (under
max_by, later elements replace the candidate unless it is strictly
greater). -/
theorem noteOn_steals_last_max_timer (voices : List Voice) (note : ℕ) (vel : ℚ)
    (hne : voices ≠ [])
    (h1 : ∀ v ∈ voices, v.midi_note_id ≠ note)
    (h2 : ∀ v ∈ voices, v.is_active = true)
    (h3 : ∀ v ∈ voices, v.envelope.stage ≠ EnvelopeStage.Release) :
    ∃ i, stealIdx (voices.map fun v => v.envelope.timer) = some i ∧
      i < voices.length ∧
      noteOn voices note vel = voices.set i ((voices.getD i Voice.new).trigger note vel) ∧
      (∀ j, j < voices.length →
        (voices.map fun v => v.envelope.timer).getD j 0 ≤
          (voices.map fun v => v.envelope.timer).getD i 0) ∧
      (∀ j, i < j → j < voices.length →
        (voices.map fun v => v.envelope.timer).getD j 0 <
          (voices.map fun v => v.envelope.timer).getD i 0) := by
  have hts : voices.map (fun v => v.envelope.timer) ≠ [] := by
    simpa using hne
  obtain ⟨i, hsteal, hlen, hmax, hafter⟩ := stealIdx_spec _ hts
  have hp1 : updateFirst (fun v => v.midi_note_id == note)
      (fun v => v.trigger note vel) voices = none :=
    updateFirst_eq_none (fun v hv => by simpa using h1 v hv)
  have hp2 : updateFirst (fun v => !v.is_active)
      (fun v => v.trigger note vel) voices = none :=
    updateFirst_eq_none (fun v hv => by simp [h2 v hv])
  have hp3 : updateFirst (fun v => decide (v.envelope.stage = EnvelopeStage.Release))
      (fun v => v.trigger note vel) voices = none :=
    updateFirst_eq_none (fun v hv => by simpa using h3 v hv)
  refine ⟨i, hsteal, by simpa using hlen, ?_, fun j hj => hmax j (by simpa using hj),
    fun j hij hj => hafter j hij (by simpa using hj)⟩
  simp only [noteOn, hp1, hp2, hp3, hsteal]

/-- Claim C2 witness: on the six-voice equal-timer pool the theorem applies,
exhibiting the stolen index and its maximality. -/
theorem noteOn_steals_last_max_timer_witness :
    ∃ i, stealIdx (equalTimerPool.map fun v => v.envelope.timer) = some i ∧
      i < equalTimerPool.length ∧
      noteOn equalTimerPool 60 1 =
        equalTimerPool.set i ((equalTimerPool.getD i Voice.new).trigger 60 1) ∧
      (∀ j, j < equalTimerPool.length →
        (equalTimerPool.map fun v => v.envelope.timer).getD j 0 ≤
          (equalTimerPool.map fun v => v.envelope.timer).getD i 0) ∧
      (∀ j, i < j → j < equalTimerPool.length →
        (equalTimerPool.map fun v => v.envelope.timer).getD j 0 <
          (equalTimerPool.map fun v => v.envelope.timer).getD i 0) :=
  noteOn_steals_last_max_timer equalTimerPool 60 1 (by decide) (by decide)
    (by decide) (by decide)

end Toby
